import Mathlib

/-!
Shallow embedding of `src/yt2t/main.py` (the youtube_to_text pipeline).

External libraries (pytube, moviepy, whisper, youtube_transcript_api, pydub,
wave) are modelled by an `Env` oracle: each call into a library is a field of
`Env` returning either a value or a Python exception (`PyErr`).  The pure
string logic of the script (the URL regex, `str.replace`, `str.endswith`,
`" ".join`) is embedded directly as executable Lean functions on `List Char`.
Side effects that the claims talk about (file creation/removal, transcript
fetch attempts, audio download attempts, printed diagnostics) are recorded as
an event trace.
-/

namespace Yt2t

/-- Python exceptions that the script distinguishes in its handlers. -/
inductive PyErr where
  | transcriptsDisabled
  | noTranscriptFound
  | valueError (msg : String)
  | typeError (msg : String)
  | other (msg : String)
deriving DecidableEq

/-- The text `str(e)` used when an exception is interpolated into a message. -/
def PyErr.message : PyErr → String
  | .transcriptsDisabled => "TranscriptsDisabled"
  | .noTranscriptFound => "NoTranscriptFound"
  | .valueError m => m
  | .typeError m => m
  | .other m => m

/-- Observable events of a run: network attempts, file system writes and
removals, and console diagnostics. -/
inductive Ev where
  | fetchAttempt (url : String)
  | downloadAttempt (url : String)
  | createFile (path : String)
  | deleteFile (path : String)
  | printMsg (msg : String)
deriving DecidableEq

/-- `isPre p l` decides whether the char list `p` is an initial segment of
`l` (model of anchored regex literal matching). -/
def isPre : List Char → List Char → Bool
  | [], _ => true
  | _ :: _, [] => false
  | a :: as, b :: bs => if a = b then isPre as bs else false

/-- `isSuf suf l` decides whether `suf` is a final segment of `l`
(model of Python `str.endswith`). -/
def isSuf (suf l : List Char) : Bool := isPre suf.reverse l.reverse

/-- Model of Python `s.endswith(suf)`. -/
def pyEndsWith (s suf : String) : Bool := isSuf suf.data s.data

/-- One fuelled pass of Python `str.replace`: replace every non-overlapping
occurrence of `old`, scanning left to right. -/
def pyReplaceAux (old new : List Char) : Nat → List Char → List Char
  | _, [] => []
  | 0, s => s
  | fuel + 1, c :: rest =>
    if isPre old (c :: rest) then
      new ++ pyReplaceAux old new fuel ((c :: rest).drop old.length)
    else
      c :: pyReplaceAux old new fuel rest

/-- Model of Python `s.replace(old, new)` (for nonempty `old`): every
occurrence of `old` in `s` is replaced by `new`. -/
def pyReplace (s old new : String) : String :=
  ⟨pyReplaceAux old.data new.data s.data.length s.data⟩

/-! ## The URL classifier

`is_valid_youtube_url` embeds
`re.match(r"^(https?\:\/\/)?(www\.youtube\.com|youtu\.?be)\/.+$", url)`.
The scheme group contributes `""`, `"http://"` or `"https://"`; the host
alternation `www\.youtube\.com|youtu\.?be` contributes `"www.youtube.com"`,
`"youtube"` (the optional dot absent) or `"youtu.be"`; then a literal `/`;
then `.+$`: one or more non-newline characters, where `$` also matches just
before a single trailing newline. -/

def schemes : List (List Char) := [[], "http://".data, "https://".data]

def hosts : List (List Char) := ["www.youtube.com".data, "youtube".data, "youtu.be".data]

/-- Executable semantics of the regex tail `.+$` (Python, non-MULTILINE):
the remainder is nonempty, newline-free except possibly a single final
newline that `$` matches before. -/
def tailOkB (t : List Char) : Bool :=
  (decide (t ≠ []) && t.all fun c => decide (c ≠ '\n')) ||
  (decide (t.getLast? = some '\n') && decide (t.dropLast ≠ []) &&
    t.dropLast.all fun c => decide (c ≠ '\n'))

/-- Embedding of `is_valid_youtube_url` from the source. -/
def is_valid_youtube_url (url : String) : Bool :=
  schemes.any fun p => hosts.any fun h =>
    if isPre (p ++ h ++ ['/']) url.data then
      tailOkB (url.data.drop (p ++ h ++ ['/']).length)
    else false

/-! ## The external-world oracle -/

/-- Oracle for every call the script makes into an external library.
`Except.error e` models the call raising the Python exception `e`. -/
structure Env where
  /-- `os.path.isfile(source)`. -/
  isFile : String → Bool
  /-- `YouTube(url).video_id`; `none` models pytube raising (pytube raises
  its own exception types, never the two transcript-API ones). -/
  videoId : String → Option String
  /-- `YouTubeTranscriptApi.list_transcripts(vid)` followed by
  `find_transcript([language])`. -/
  findTranscript : String → String → Except PyErr Unit
  /-- `transcript.fetch()` projected to the `entry["text"]` fields, in entry
  order. -/
  fetchEntries : String → String → Except PyErr (List String)
  /-- stream selection and `audio_stream.download(...)` succeed. -/
  downloadOk : Bool
  /-- `AudioFileClip(temp).write_audiofile(out, codec="libmp3lame")` succeeds. -/
  exportOk : Bool
  /-- `AudioSegment.from_mp3(p)` and the wav export succeed. -/
  mp3ConvOk : String → Bool
  /-- `VideoFileClip(p)`, `.audio` and the wav export succeed. -/
  mp4ConvOk : String → Bool
  /-- `wave.open(p)` header read: frame count over sample rate. -/
  audioLength : String → Except PyErr Nat
  /-- `whisper.load_model(...)` plus `model.transcribe(p, language=l)`,
  projected to `result["text"]`. -/
  transcribe : String → String → Except PyErr String

/-! ## Pipeline stages

Each stage returns the Python function's return value (`none` models
`return None` from an exception handler) paired with its event trace. -/

/-- Embedding of `download_youtube_audio_as_mp3`. -/
def download_youtube_audio_as_mp3 (env : Env) (url : String) :
    Option String × List Ev :=
  let ev0 := [Ev.downloadAttempt url]
  match env.videoId url with
  | none => (none, ev0 ++ [Ev.printMsg "Error downloading YouTube video: ..."])
  | some vid =>
    if env.downloadOk then
      let temp := vid ++ ".mp4"
      let ev1 := ev0 ++ [Ev.createFile temp]
      if env.exportOk then
        let outp := vid ++ ".mp3"
        (some outp, ev1 ++ [Ev.createFile outp, Ev.deleteFile temp])
      else
        (none, ev1 ++ [Ev.printMsg "Error downloading YouTube video: ..."])
    else
      (none, ev0 ++ [Ev.printMsg "Error downloading YouTube video: ..."])

/-- Embedding of `convert_mp3_to_wav`: on success the wav path is
`mp3_path.replace(".mp3", ".wav")`. -/
def convert_mp3_to_wav (env : Env) (mp3_path : String) :
    Option String × List Ev :=
  if env.mp3ConvOk mp3_path then
    let wav_path := pyReplace mp3_path ".mp3" ".wav"
    (some wav_path, [Ev.createFile wav_path])
  else
    (none, [Ev.printMsg "Error converting MP3 to WAV: ..."])

/-- Embedding of `convert_mp4_to_wav`: on success the wav path is
`mp4_path.replace(".mp4", ".wav")`. -/
def convert_mp4_to_wav (env : Env) (mp4_path : String) :
    Option String × List Ev :=
  if env.mp4ConvOk mp4_path then
    let wav_path := pyReplace mp4_path ".mp4" ".wav"
    (some wav_path, [Ev.createFile wav_path])
  else
    (none, [Ev.printMsg "Error converting MP4 to WAV: ..."])

/-- Embedding of `get_audio_length` (a direct `wave` header read). -/
def get_audio_length (env : Env) (audio_path : String) : Except PyErr Nat :=
  env.audioLength audio_path

/-- The tail of `convert_audio_to_text` after the format dispatch: duration
read, model load and transcription, still inside the stage's `try`. -/
def transcribePhase (env : Env) (wav language : String) (evs : List Ev) :
    Option String × List Ev :=
  match get_audio_length env wav with
  | .error e => (none, evs ++ [Ev.printMsg ("Error transcribing audio: " ++ e.message)])
  | .ok _ =>
    match env.transcribe wav language with
    | .error e => (none, evs ++ [Ev.printMsg ("Error transcribing audio: " ++ e.message)])
    | .ok text => (some text, evs)

/-- Embedding of `convert_audio_to_text`.  When a nested wav conversion
returns `None`, Python goes on to call `get_audio_length(None)`, whose
`wave.open(None)` raises a `TypeError` that the stage's own handler
catches. -/
def convert_audio_to_text (env : Env) (audio_path : String)
    (language : String) : Option String × List Ev :=
  if pyEndsWith audio_path ".wav" then
    transcribePhase env audio_path language []
  else if pyEndsWith audio_path ".mp3" then
    match convert_mp3_to_wav env audio_path with
    | (some wav, evs) => transcribePhase env wav language evs
    | (none, evs) =>
      (none, evs ++ [Ev.printMsg ("Error transcribing audio: " ++
        (PyErr.typeError "wave.open(None)").message)])
  else if pyEndsWith audio_path ".mp4" then
    match convert_mp4_to_wav env audio_path with
    | (some wav, evs) => transcribePhase env wav language evs
    | (none, evs) =>
      (none, evs ++ [Ev.printMsg ("Error transcribing audio: " ++
        (PyErr.typeError "wave.open(None)").message)])
  else
    (none, [Ev.printMsg ("Error transcribing audio: " ++
      (PyErr.valueError "Unsupported file format. Only MP3 and MP4 are supported.").message)])

/-- Embedding of `get_youtube_transcript`. -/
def get_youtube_transcript (env : Env) (url : String) (language : String) :
    Option String × List Ev :=
  let ev0 := [Ev.fetchAttempt url]
  match env.videoId url with
  | none => (none, ev0 ++ [Ev.printMsg "Error retrieving transcript: ..."])
  | some vid =>
    match env.findTranscript vid language with
    | .error .transcriptsDisabled =>
      (none, ev0 ++ [Ev.printMsg ("No transcript available for video: " ++ vid)])
    | .error .noTranscriptFound =>
      (none, ev0 ++ [Ev.printMsg ("No transcript available for video: " ++ vid)])
    | .error e =>
      (none, ev0 ++ [Ev.printMsg ("Error retrieving transcript: " ++ e.message)])
    | .ok _ =>
      let ev1 := ev0 ++ [Ev.printMsg ("Retrieving transcript for video: " ++ vid)]
      match env.fetchEntries vid language with
      | .error .transcriptsDisabled =>
        (none, ev1 ++ [Ev.printMsg ("No transcript available for video: " ++ vid)])
      | .error .noTranscriptFound =>
        (none, ev1 ++ [Ev.printMsg ("No transcript available for video: " ++ vid)])
      | .error e =>
        (none, ev1 ++ [Ev.printMsg ("Error retrieving transcript: " ++ e.message)])
      | .ok texts => (some (String.intercalate " " texts), ev1)

/-! ## The orchestrator -/

/-- Which branch of `main`'s source dispatch ran. -/
inductive Branch where
  | localFile
  | url
  | invalid
deriving DecidableEq

/-- CLI arguments after `argparse`. -/
structure Args where
  source : String
  language : String
  ignore_transcript : Bool

/-- Result of a run of `main`: the branch taken, the text printed by the
final `print(text)` (`none` when `text is None`), and the event trace. -/
structure RunResult where
  branch : Branch
  finalOutput : Option String
  events : List Ev
deriving DecidableEq

/-- Embedding of `main` (after argument parsing). -/
def main (env : Env) (args : Args) : RunResult :=
  if env.isFile args.source then
    if pyEndsWith args.source ".mp4" then
      match convert_mp4_to_wav env args.source with
      | (none, evs) =>
        ⟨.localFile, none, evs ++ [Ev.printMsg "Failed to convert MP4 to WAV."]⟩
      | (some audio_file, evs) =>
        let (text, evs2) := convert_audio_to_text env audio_file args.language
        ⟨.localFile, text, evs ++ evs2⟩
    else
      let (text, evs) := convert_audio_to_text env args.source args.language
      ⟨.localFile, text, evs⟩
  else if is_valid_youtube_url args.source then
    let (text0, evs0) :=
      if args.ignore_transcript then (none, [])
      else get_youtube_transcript env args.source args.language
    match text0 with
    | some t => ⟨.url, some t, evs0⟩
    | none =>
      match download_youtube_audio_as_mp3 env args.source with
      | (none, evs1) =>
        ⟨.url, none, evs0 ++ evs1 ++
          [Ev.printMsg "Failed to download or convert YouTube video to audio."]⟩
      | (some audio_file, evs1) =>
        let (text, evs2) := convert_audio_to_text env audio_file args.language
        ⟨.url, text, evs0 ++ evs1 ++ evs2⟩
  else
    ⟨.invalid, none,
      [Ev.printMsg "Invalid source. Please provide a valid YouTube URL or local audio file path."]⟩

/-! ## Trace observations -/

def isFetchEv : Ev → Bool
  | .fetchAttempt _ => true
  | _ => false

def isDownloadEv : Ev → Bool
  | .downloadAttempt _ => true
  | _ => false

def isCreateEv : Ev → Bool
  | .createFile _ => true
  | _ => false

def isPrintEv : Ev → Bool
  | .printMsg _ => true
  | _ => false

/-- The run attempted a transcript fetch. -/
def hasEvFetch (evs : List Ev) : Bool := evs.any isFetchEv

/-- The run attempted an audio download. -/
def hasEvDownload (evs : List Ev) : Bool := evs.any isDownloadEv

/-- The run created some file. -/
def hasEvCreate (evs : List Ev) : Bool := evs.any isCreateEv

/-- The run printed some diagnostic message. -/
def hasEvPrint (evs : List Ev) : Bool := evs.any isPrintEv

/-- A deletion of `f` in a run over `src` is of the downloaded mp4 container
of the video, and the run created that container's mp3 export. -/
def deletionJustified (env : Env) (src f : String) (evs : List Ev) : Bool :=
  match env.videoId src with
  | some vid => decide (f = vid ++ ".mp4") && decide (Ev.createFile (vid ++ ".mp3") ∈ evs)
  | none => false

/-! ## The spec's URL pattern, and the regex's actual language -/

/-- Written from the spec's words: the pattern
`(https?://)?(www.youtube.com|youtu.be)/...` — optional scheme, host
`www.youtube.com` or `youtu.be`, a slash, and at least one further
character. -/
def claimedPattern (url : String) : Bool :=
  [([] : List Char), "http://".data, "https://".data].any fun p =>
    ["www.youtube.com".data, "youtu.be".data].any fun h =>
      if isPre (p ++ h ++ ['/']) url.data then
        decide (url.data.drop (p ++ h ++ ['/']).length ≠ [])
      else false

/-- Declarative semantics of the regex tail `.+$`. -/
def TailOk (t : List Char) : Prop :=
  (t ≠ [] ∧ ∀ c ∈ t, c ≠ '\n') ∨
  (t.getLast? = some '\n' ∧ t.dropLast ≠ [] ∧ ∀ c ∈ t.dropLast, c ≠ '\n')

/-- Declarative language of the source regex: optional scheme, host
`www.youtube.com`, `youtube` (the optional dot of `youtu\.?be` absent) or
`youtu.be`, a slash, and a `.+$` tail. -/
def AmendedPattern (url : String) : Prop :=
  ∃ p ∈ schemes, ∃ h ∈ hosts, ∃ t, url.data = p ++ (h ++ '/' :: t) ∧ TailOk t

/-! ## Python `str.replace` on suffix-only occurrences -/

/-- Every occurrence of `old` in `s` sits at the very end of `s`. -/
def onlySuffix (s old : List Char) : Prop :=
  ∀ i < s.length, isPre old (s.drop i) = true → i + old.length = s.length

instance (s old : List Char) : Decidable (onlySuffix s old) := by
  unfold onlySuffix; infer_instance

/-! ## Concrete environments used to instantiate the theorems -/

/-- A fully healthy external world: the source is never an existing file,
every video has id `"v"`, a transcript `["hello", "world"]`, and every
library call succeeds. -/
def envBase : Env where
  isFile := fun _ => false
  videoId := fun _ => some "v"
  findTranscript := fun _ _ => .ok ()
  fetchEntries := fun _ _ => .ok ["hello", "world"]
  downloadOk := true
  exportOk := true
  mp3ConvOk := fun _ => true
  mp4ConvOk := fun _ => true
  audioLength := fun _ => .ok 10
  transcribe := fun _ _ => .ok "asr text"

/-- A world where the source names an existing file. -/
def envLocal : Env := { envBase with isFile := fun _ => true }

/-- A world whose video's transcript has zero caption entries. -/
def envEmptyTranscript : Env := { envBase with fetchEntries := fun _ _ => .ok [] }

/-- A world where every mp3-to-wav conversion fails. -/
def envMp3Fail : Env := { envBase with mp3ConvOk := fun _ => false }

/-- A world where every mp4-to-wav conversion fails. -/
def envMp4Fail : Env := { envBase with mp4ConvOk := fun _ => false }

/-- A world where pytube always raises and transcription always fails. -/
def envAllFail : Env :=
  { envBase with
    videoId := fun _ => none
    transcribe := fun _ _ => .error (.other "boom") }

/-- CLI invocation on a YouTube URL, transcript retrieval enabled. -/
def argsUrl : Args := ⟨"https://www.youtube.com/watch?v=abc", "en", false⟩

/-- CLI invocation on a YouTube URL with `--ignore_transcript`. -/
def argsIg : Args := ⟨"youtu.be/abc", "ja", true⟩

/-! # Theorems -/

theorem isPre_iff (p l : List Char) : isPre p l = true ↔ ∃ t, l = p ++ t := by
  induction p generalizing l with
  | nil => simp [isPre]
  | cons a as ih =>
    cases l with
    | nil => simp [isPre]
    | cons b bs =>
      by_cases hab : a = b
      · subst hab
        constructor
        · intro h
          have h' : isPre as bs = true := by simpa [isPre] using h
          obtain ⟨t, rfl⟩ := (ih bs).mp h'
          exact ⟨t, rfl⟩
        · rintro ⟨t, ht⟩
          simp only [List.cons_append] at ht
          injection ht with _ hbs
          have := (ih bs).mpr ⟨t, hbs⟩
          simpa [isPre] using this
      · constructor
        · intro h
          simp [isPre, hab] at h
        · rintro ⟨t, ht⟩
          simp only [List.cons_append] at ht
          injection ht with h1 _
          exact absurd h1.symm hab

theorem isSuf_iff (suf l : List Char) : isSuf suf l = true ↔ ∃ t, l = t ++ suf := by
  unfold isSuf
  rw [isPre_iff]
  constructor
  · rintro ⟨t, ht⟩
    refine ⟨t.reverse, ?_⟩
    have := congrArg List.reverse ht
    simpa using this
  · rintro ⟨t, rfl⟩
    exact ⟨t.reverse, by simp⟩

theorem tailOkB_iff (t : List Char) : tailOkB t = true ↔ TailOk t := by
  simp [tailOkB, TailOk, List.all_eq_true, and_assoc]

/-- C3 (amended): the classifier accepts a string exactly when it matches
the source regex `^(https?\:\/\/)?(www\.youtube\.com|youtu\.?be)\/.+$` with
Python semantics: optional scheme; host `www.youtube.com`, `youtube`, or
`youtu.be` (the dot of `youtu\.?be` is optional, so bare `youtube` is also an
accepted host); a slash; then one or more non-newline characters, with `$`
also matching just before a single trailing newline. -/
theorem C3_url_classifier_amended (url : String) :
    is_valid_youtube_url url = true ↔ AmendedPattern url := by
  unfold is_valid_youtube_url AmendedPattern
  rw [List.any_eq_true]
  constructor
  · rintro ⟨p, hp, hrest⟩
    rw [List.any_eq_true] at hrest
    obtain ⟨h, hh, hcond⟩ := hrest
    by_cases hpre : isPre (p ++ h ++ ['/']) url.data = true
    · rw [if_pos hpre] at hcond
      obtain ⟨t, ht⟩ := (isPre_iff _ _).mp hpre
      refine ⟨p, hp, h, hh, t, ?_, ?_⟩
      · rw [ht]; simp
      · rw [ht, List.drop_left] at hcond
        exact (tailOkB_iff t).mp hcond
    · rw [if_neg hpre] at hcond
      cases hcond
  · rintro ⟨p, hp, h, hh, t, hurl, htail⟩
    refine ⟨p, hp, ?_⟩
    rw [List.any_eq_true]
    refine ⟨h, hh, ?_⟩
    have hsplit : url.data = (p ++ h ++ ['/']) ++ t := by rw [hurl]; simp
    have hpre : isPre (p ++ h ++ ['/']) url.data = true :=
      (isPre_iff _ _).mpr ⟨t, hsplit⟩
    rw [if_pos hpre, hsplit, List.drop_left]
    exact (tailOkB_iff t).mpr htail

theorem onlySuffix_all {s old : List Char} (hos : onlySuffix s old)
    (hold : old ≠ []) : ∀ a b, s = a ++ (old ++ b) → b = [] := by
  intro a b hs
  have holdlen : 0 < old.length := List.length_pos.mpr hold
  have hlen : s.length = a.length + (old.length + b.length) := by
    rw [hs]; simp
  have hi : a.length < s.length := by omega
  have hdrop : s.drop a.length = old ++ b := by rw [hs, List.drop_left]
  have hpre : isPre old (s.drop a.length) = true := by
    rw [hdrop]; exact (isPre_iff _ _).mpr ⟨b, rfl⟩
  have := hos a.length hi hpre
  have : b.length = 0 := by omega
  exact List.eq_nil_of_length_eq_zero this

theorem pyReplaceAux_nil (old new : List Char) (fuel : Nat) :
    pyReplaceAux old new fuel [] = [] := by
  cases fuel <;> rfl

theorem pyReplaceAux_only_suffix (old new : List Char) (hold : old ≠ []) :
    ∀ fuel s t, s = t ++ old → (∀ a b, s = a ++ (old ++ b) → b = []) →
      s.length ≤ fuel → pyReplaceAux old new fuel s = t ++ new := by
  intro fuel
  induction fuel with
  | zero =>
    intro s t hs _ hlen
    exfalso
    have : s = [] := List.eq_nil_of_length_eq_zero (Nat.le_zero.mp hlen)
    rw [this] at hs
    exact hold (List.append_eq_nil.mp hs.symm).2
  | succ fuel ih =>
    intro s t hs hall hlen
    cases s with
    | nil =>
      exfalso
      exact hold (List.append_eq_nil.mp hs.symm).2
    | cons c rest =>
      by_cases hpre : isPre old (c :: rest) = true
      · obtain ⟨u, hu⟩ := (isPre_iff _ _).mp hpre
        have hu0 : u = [] := hall [] u (by simpa using hu)
        rw [hu0, List.append_nil] at hu
        have ht0 : t = [] := by
          have : t ++ old = ([] : List Char) ++ old := by
            rw [← hs, hu]; simp
          exact List.append_cancel_right this
        show pyReplaceAux old new (fuel + 1) (c :: rest) = t ++ new
        rw [pyReplaceAux, if_pos hpre, ht0]
        have hdrop : (c :: rest).drop old.length = [] := by
          rw [hu, List.drop_length]
        rw [hdrop, pyReplaceAux_nil, List.append_nil, List.nil_append]
      · cases t with
        | nil =>
          exfalso
          apply hpre
          rw [List.nil_append] at hs
          exact (isPre_iff _ _).mpr ⟨[], by rw [hs, List.append_nil]⟩
        | cons d t2 =>
          rw [List.cons_append] at hs
          injection hs with hcd hrest
          subst hcd
          show pyReplaceAux old new (fuel + 1) (c :: rest) = (c :: t2) ++ new
          rw [pyReplaceAux, if_neg hpre]
          have hall2 : ∀ a b, rest = a ++ (old ++ b) → b = [] := by
            intro a b hab
            exact hall (c :: a) b (by rw [hab]; simp)
          have hlen2 : rest.length ≤ fuel := by
            have : (c :: rest).length = rest.length + 1 := rfl
            omega
          rw [ih rest t2 hrest hall2 hlen2, List.cons_append]

theorem pyReplace_suffix (s old new : String) (t : List Char)
    (hold : old.data ≠ [])
    (hs : s.data = t ++ old.data)
    (honly : onlySuffix s.data old.data) :
    pyReplace s old new = ⟨t ++ new.data⟩ := by
  unfold pyReplace
  congr 1
  exact pyReplaceAux_only_suffix old.data new.data hold s.data.length s.data t hs
    (onlySuffix_all honly hold) (Nat.le_refl _)

/-! ## Trace shape of each stage -/

theorem gt_trace_mem (env : Env) (u l : String) :
    ∀ e ∈ (get_youtube_transcript env u l).2,
      e = Ev.fetchAttempt u ∨ ∃ m, e = Ev.printMsg m := by
  intro e he
  simp only [get_youtube_transcript] at he
  repeat' split at he
  all_goals simp only [List.append_assoc, List.cons_append, List.nil_append,
    List.mem_cons, List.not_mem_nil, or_false] at he
  all_goals aesop

theorem gt_has_fetch (env : Env) (u l : String) :
    hasEvFetch (get_youtube_transcript env u l).2 = true := by
  simp only [get_youtube_transcript]
  repeat' split
  all_goals simp [hasEvFetch, isFetchEv]

theorem gt_no_download (env : Env) (u l : String) :
    hasEvDownload (get_youtube_transcript env u l).2 = false := by
  rw [hasEvDownload, List.any_eq_false]
  intro e he
  rcases gt_trace_mem env u l e he with rfl | ⟨m, rfl⟩ <;> simp [isDownloadEv]

theorem gt_no_delete (env : Env) (u l f : String) :
    Ev.deleteFile f ∉ (get_youtube_transcript env u l).2 := by
  intro he
  rcases gt_trace_mem env u l _ he with h | ⟨m, h⟩ <;> cases h

theorem gt_none_print (env : Env) (u l : String)
    (h : (get_youtube_transcript env u l).1 = none) :
    hasEvPrint (get_youtube_transcript env u l).2 = true := by
  unfold get_youtube_transcript at h ⊢
  cases hv : env.videoId u with
  | none => simp [hv, hasEvPrint, isPrintEv]
  | some vid =>
    simp only [hv] at h ⊢
    cases hf : env.findTranscript vid l with
    | error pe =>
      cases pe <;> simp [hf, hasEvPrint, isPrintEv]
    | ok uu =>
      simp only [hf] at h ⊢
      cases hfe : env.fetchEntries vid l with
      | error pe =>
        cases pe <;> simp [hfe, hasEvPrint, isPrintEv]
      | ok texts =>
        simp [hfe] at h

theorem dl_trace_mem (env : Env) (u : String) :
    ∀ e ∈ (download_youtube_audio_as_mp3 env u).2,
      e = Ev.downloadAttempt u ∨ (∃ m, e = Ev.printMsg m) ∨
      (∃ vid, env.videoId u = some vid ∧
        (e = Ev.createFile (vid ++ ".mp4") ∨ e = Ev.createFile (vid ++ ".mp3") ∨
         e = Ev.deleteFile (vid ++ ".mp4"))) := by
  intro e he
  simp only [download_youtube_audio_as_mp3] at he
  split at he
  · simp only [List.cons_append, List.nil_append, List.mem_cons,
      List.not_mem_nil, or_false] at he
    rcases he with rfl | rfl
    · exact Or.inl rfl
    · exact Or.inr (Or.inl ⟨_, rfl⟩)
  · rename_i vid hv
    split at he
    · split at he
      · simp only [List.append_assoc, List.cons_append, List.nil_append,
          List.mem_cons, List.not_mem_nil, or_false] at he
        rcases he with rfl | rfl | rfl | rfl
        · exact Or.inl rfl
        · exact Or.inr (Or.inr ⟨vid, hv, Or.inl rfl⟩)
        · exact Or.inr (Or.inr ⟨vid, hv, Or.inr (Or.inl rfl)⟩)
        · exact Or.inr (Or.inr ⟨vid, hv, Or.inr (Or.inr rfl)⟩)
      · simp only [List.append_assoc, List.cons_append, List.nil_append,
          List.mem_cons, List.not_mem_nil, or_false] at he
        rcases he with rfl | rfl | rfl
        · exact Or.inl rfl
        · exact Or.inr (Or.inr ⟨vid, hv, Or.inl rfl⟩)
        · exact Or.inr (Or.inl ⟨_, rfl⟩)
    · simp only [List.cons_append, List.nil_append, List.mem_cons,
        List.not_mem_nil, or_false] at he
      rcases he with rfl | rfl
      · exact Or.inl rfl
      · exact Or.inr (Or.inl ⟨_, rfl⟩)

theorem dl_has_download (env : Env) (u : String) :
    hasEvDownload (download_youtube_audio_as_mp3 env u).2 = true := by
  simp only [download_youtube_audio_as_mp3]
  repeat' split
  all_goals simp [hasEvDownload, isDownloadEv]

theorem dl_no_fetch (env : Env) (u : String) :
    hasEvFetch (download_youtube_audio_as_mp3 env u).2 = false := by
  rw [hasEvFetch, List.any_eq_false]
  intro e he
  rcases dl_trace_mem env u e he with rfl | ⟨m, rfl⟩ | ⟨vid, _, h⟩
  · simp [isFetchEv]
  · simp [isFetchEv]
  · rcases h with rfl | rfl | rfl <;> simp [isFetchEv]

theorem dl_delete (env : Env) (u f : String)
    (h : Ev.deleteFile f ∈ (download_youtube_audio_as_mp3 env u).2) :
    ∃ vid, env.videoId u = some vid ∧ f = vid ++ ".mp4" ∧
      Ev.createFile (vid ++ ".mp3") ∈ (download_youtube_audio_as_mp3 env u).2 := by
  rcases dl_trace_mem env u _ h with h1 | ⟨m, h1⟩ | ⟨vid, hv, h1⟩
  · cases h1
  · cases h1
  · rcases h1 with h1 | h1 | h1
    · cases h1
    · cases h1
    · injection h1 with hf
      refine ⟨vid, hv, hf, ?_⟩
      simp only [download_youtube_audio_as_mp3, hv] at h ⊢
      by_cases hd : env.downloadOk = true
      · by_cases hx : env.exportOk = true
        · simp [hd, hx]
        · simp [hd, hx] at h
      · simp [hd] at h

theorem dl_none_print (env : Env) (u : String)
    (h : (download_youtube_audio_as_mp3 env u).1 = none) :
    hasEvPrint (download_youtube_audio_as_mp3 env u).2 = true := by
  unfold download_youtube_audio_as_mp3 at h ⊢
  cases hv : env.videoId u with
  | none => simp [hv, hasEvPrint, isPrintEv]
  | some vid =>
    simp only [hv] at h ⊢
    by_cases hd : env.downloadOk = true
    · by_cases hx : env.exportOk = true
      · simp [hd, hx] at h
      · simp [hd, hx, hasEvPrint, isPrintEv]
    · simp [hd, hasEvPrint, isPrintEv]

theorem conv3_trace_mem (env : Env) (p : String) :
    ∀ e ∈ (convert_mp3_to_wav env p).2,
      (∃ f, e = Ev.createFile f) ∨ ∃ m, e = Ev.printMsg m := by
  intro e he
  simp only [convert_mp3_to_wav] at he
  split at he
  all_goals simp only [List.mem_cons, List.not_mem_nil, or_false] at he
  all_goals subst he
  · exact Or.inl ⟨_, rfl⟩
  · exact Or.inr ⟨_, rfl⟩

theorem conv4_trace_mem (env : Env) (p : String) :
    ∀ e ∈ (convert_mp4_to_wav env p).2,
      (∃ f, e = Ev.createFile f) ∨ ∃ m, e = Ev.printMsg m := by
  intro e he
  simp only [convert_mp4_to_wav] at he
  split at he
  all_goals simp only [List.mem_cons, List.not_mem_nil, or_false] at he
  all_goals subst he
  · exact Or.inl ⟨_, rfl⟩
  · exact Or.inr ⟨_, rfl⟩

theorem conv3_none_print (env : Env) (p : String)
    (h : (convert_mp3_to_wav env p).1 = none) :
    hasEvPrint (convert_mp3_to_wav env p).2 = true := by
  by_cases hc : env.mp3ConvOk p = true
  · simp [convert_mp3_to_wav, hc] at h
  · simp [convert_mp3_to_wav, hc, hasEvPrint, isPrintEv]

theorem conv4_none_print (env : Env) (p : String)
    (h : (convert_mp4_to_wav env p).1 = none) :
    hasEvPrint (convert_mp4_to_wav env p).2 = true := by
  by_cases hc : env.mp4ConvOk p = true
  · simp [convert_mp4_to_wav, hc] at h
  · simp [convert_mp4_to_wav, hc, hasEvPrint, isPrintEv]

theorem tp_trace_mem (env : Env) (w l : String) (evs : List Ev) :
    ∀ e ∈ (transcribePhase env w l evs).2, e ∈ evs ∨ ∃ m, e = Ev.printMsg m := by
  intro e he
  simp only [transcribePhase] at he
  repeat' split at he
  all_goals simp only [List.mem_append, List.mem_cons, List.not_mem_nil,
    or_false] at he
  all_goals aesop

theorem cat_trace_mem (env : Env) (p l : String) :
    ∀ e ∈ (convert_audio_to_text env p l).2,
      (∃ f, e = Ev.createFile f) ∨ ∃ m, e = Ev.printMsg m := by
  intro e he
  simp only [convert_audio_to_text] at he
  split at he
  · rcases tp_trace_mem env p l [] e he with h | h
    · cases h
    · exact Or.inr h
  · split at he
    · split at he
      · rename_i wav evs hconv
        rcases tp_trace_mem env wav l evs e he with h | h
        · have := conv3_trace_mem env p e (by rw [hconv]; exact h)
          exact this
        · exact Or.inr h
      · rename_i evs hconv
        simp only [List.mem_append, List.mem_cons, List.not_mem_nil,
          or_false] at he
        rcases he with he | rfl
        · exact conv3_trace_mem env p e (by rw [hconv]; exact he)
        · exact Or.inr ⟨_, rfl⟩
    · split at he
      · split at he
        · rename_i wav evs hconv
          rcases tp_trace_mem env wav l evs e he with h | h
          · exact conv4_trace_mem env p e (by rw [hconv]; exact h)
          · exact Or.inr h
        · rename_i evs hconv
          simp only [List.mem_append, List.mem_cons, List.not_mem_nil,
            or_false] at he
          rcases he with he | rfl
          · exact conv4_trace_mem env p e (by rw [hconv]; exact he)
          · exact Or.inr ⟨_, rfl⟩
      · simp only [List.mem_cons, List.not_mem_nil, or_false] at he
        subst he
        exact Or.inr ⟨_, rfl⟩

theorem cat_no_fetch (env : Env) (p l : String) :
    hasEvFetch (convert_audio_to_text env p l).2 = false := by
  rw [hasEvFetch, List.any_eq_false]
  intro e he
  rcases cat_trace_mem env p l e he with ⟨f, rfl⟩ | ⟨m, rfl⟩ <;> simp [isFetchEv]

theorem cat_no_download (env : Env) (p l : String) :
    hasEvDownload (convert_audio_to_text env p l).2 = false := by
  rw [hasEvDownload, List.any_eq_false]
  intro e he
  rcases cat_trace_mem env p l e he with ⟨f, rfl⟩ | ⟨m, rfl⟩ <;> simp [isDownloadEv]

theorem cat_no_delete (env : Env) (p l f : String) :
    Ev.deleteFile f ∉ (convert_audio_to_text env p l).2 := by
  intro he
  rcases cat_trace_mem env p l _ he with ⟨f2, h⟩ | ⟨m, h⟩ <;> cases h

/-! ## Failure propagation -/

theorem tp_none_print (env : Env) (w l : String) (evs : List Ev)
    (h : (transcribePhase env w l evs).1 = none) :
    hasEvPrint (transcribePhase env w l evs).2 = true := by
  unfold transcribePhase at h ⊢
  cases hal : get_audio_length env w with
  | error e => simp [hal, hasEvPrint, isPrintEv, List.any_append]
  | ok n =>
    simp only [hal] at h ⊢
    cases ht : env.transcribe w l with
    | error e => simp [ht, hasEvPrint, isPrintEv, List.any_append]
    | ok text => simp [ht] at h

theorem cat_none_print (env : Env) (p l : String)
    (h : (convert_audio_to_text env p l).1 = none) :
    hasEvPrint (convert_audio_to_text env p l).2 = true := by
  unfold convert_audio_to_text at h ⊢
  by_cases h1 : pyEndsWith p ".wav" = true
  · rw [if_pos h1] at h ⊢
    exact tp_none_print env p l [] h
  · rw [if_neg h1] at h ⊢
    by_cases h2 : pyEndsWith p ".mp3" = true
    · rw [if_pos h2] at h ⊢
      rcases hpair : convert_mp3_to_wav env p with ⟨r, evs⟩
      rw [hpair] at h
      cases r with
      | some wav => exact tp_none_print env wav l evs h
      | none => simp [hasEvPrint, isPrintEv, List.any_append]
    · rw [if_neg h2] at h ⊢
      by_cases h3 : pyEndsWith p ".mp4" = true
      · rw [if_pos h3] at h ⊢
        rcases hpair : convert_mp4_to_wav env p with ⟨r, evs⟩
        rw [hpair] at h
        cases r with
        | some wav => exact tp_none_print env wav l evs h
        | none => simp [hasEvPrint, isPrintEv, List.any_append]
      · rw [if_neg h3] at h ⊢
        simp [hasEvPrint, isPrintEv]

theorem tp_none_trans (env : Env) (w l : String) (evs : List Ev)
    (htr : ∀ p2 l2 t, env.transcribe p2 l2 ≠ Except.ok t) :
    (transcribePhase env w l evs).1 = none := by
  unfold transcribePhase
  cases hal : get_audio_length env w with
  | error e => simp
  | ok n =>
    cases ht : env.transcribe w l with
    | error e => simp
    | ok text => exact absurd ht (htr _ _ _)

theorem cat_none_trans (env : Env) (p l : String)
    (htr : ∀ p2 l2 t, env.transcribe p2 l2 ≠ Except.ok t) :
    (convert_audio_to_text env p l).1 = none := by
  unfold convert_audio_to_text
  by_cases h1 : pyEndsWith p ".wav" = true
  · rw [if_pos h1]
    exact tp_none_trans env p l [] htr
  · rw [if_neg h1]
    by_cases h2 : pyEndsWith p ".mp3" = true
    · rw [if_pos h2]
      rcases hpair : convert_mp3_to_wav env p with ⟨r, evs⟩
      cases r with
      | some wav => exact tp_none_trans env wav l evs htr
      | none => rfl
    · rw [if_neg h2]
      by_cases h3 : pyEndsWith p ".mp4" = true
      · rw [if_pos h3]
        rcases hpair : convert_mp4_to_wav env p with ⟨r, evs⟩
        cases r with
        | some wav => exact tp_none_trans env wav l evs htr
        | none => rfl
      · rw [if_neg h3]

theorem gt_none_of_no_vid (env : Env) (u l : String)
    (hvid : env.videoId u = none) :
    (get_youtube_transcript env u l).1 = none := by
  unfold get_youtube_transcript
  simp [hvid]

theorem dl_none_of_no_vid (env : Env) (u : String)
    (hvid : env.videoId u = none) :
    (download_youtube_audio_as_mp3 env u).1 = none := by
  unfold download_youtube_audio_as_mp3
  simp [hvid]

theorem main_none_of_all_fail (env : Env) (args : Args)
    (hvid : ∀ u2, env.videoId u2 = none)
    (htr : ∀ p2 l2 t, env.transcribe p2 l2 ≠ Except.ok t) :
    (main env args).finalOutput = none := by
  unfold main
  by_cases hf : env.isFile args.source = true
  · rw [if_pos hf]
    by_cases h4 : pyEndsWith args.source ".mp4" = true
    · rw [if_pos h4]
      rcases hpair : convert_mp4_to_wav env args.source with ⟨r, evs⟩
      cases r with
      | none => rfl
      | some audio_file =>
        rcases hcat : convert_audio_to_text env audio_file args.language with ⟨t2, e2⟩
        have h2 : t2 = none := by
          have := cat_none_trans env audio_file args.language htr
          rw [hcat] at this
          exact this
        simp [hcat, h2]
    · rw [if_neg h4]
      rcases hcat : convert_audio_to_text env args.source args.language with ⟨t2, e2⟩
      have h2 : t2 = none := by
        have := cat_none_trans env args.source args.language htr
        rw [hcat] at this
        exact this
      simp [h2]
  · rw [if_neg hf]
    by_cases hv : is_valid_youtube_url args.source = true
    · rw [if_pos hv]
      rcases hgtp : get_youtube_transcript env args.source args.language with ⟨rg, eg⟩
      have hg2 : rg = none := by
        have := gt_none_of_no_vid env args.source args.language (hvid args.source)
        rw [hgtp] at this
        exact this
      rcases hdlp : download_youtube_audio_as_mp3 env args.source with ⟨rd, ed⟩
      have hd2 : rd = none := by
        have := dl_none_of_no_vid env args.source (hvid args.source)
        rw [hdlp] at this
        exact this
      subst hg2
      subst hd2
      by_cases hig : args.ignore_transcript = true
      · simp [hig]
      · simp only [Bool.not_eq_true] at hig
        simp [hig]
    · rw [if_neg hv]

/-! ## Transcript-success runs -/

theorem gt_eq (env : Env) (u l vid : String) (entries : List String)
    (hvid : env.videoId u = some vid)
    (hfind : env.findTranscript vid l = Except.ok ())
    (hfetch : env.fetchEntries vid l = Except.ok entries) :
    get_youtube_transcript env u l =
      (some (String.intercalate " " entries),
       [Ev.fetchAttempt u, Ev.printMsg ("Retrieving transcript for video: " ++ vid)]) := by
  unfold get_youtube_transcript
  simp [hvid, hfind, hfetch]

theorem main_url_transcript_eq (env : Env) (args : Args) (vid : String)
    (entries : List String)
    (hfile : env.isFile args.source = false)
    (hurl : is_valid_youtube_url args.source = true)
    (hig : args.ignore_transcript = false)
    (hvid : env.videoId args.source = some vid)
    (hfind : env.findTranscript vid args.language = Except.ok ())
    (hfetch : env.fetchEntries vid args.language = Except.ok entries) :
    main env args =
      ⟨Branch.url, some (String.intercalate " " entries),
       [Ev.fetchAttempt args.source,
        Ev.printMsg ("Retrieving transcript for video: " ++ vid)]⟩ := by
  unfold main
  rw [if_neg (by simp [hfile]), if_pos hurl, if_neg (by simp [hig]),
    gt_eq env args.source args.language vid entries hvid hfind hfetch]

/-- The branch of `main` is decided by `os.path.isfile` first and the URL
regex second. -/
theorem main_branch (env : Env) (args : Args) :
    (main env args).branch =
      (if env.isFile args.source then Branch.localFile
       else if is_valid_youtube_url args.source then Branch.url
       else Branch.invalid) := by
  unfold main
  by_cases hf : env.isFile args.source = true
  · rw [if_pos hf, if_pos hf]
    by_cases h4 : pyEndsWith args.source ".mp4" = true
    · rw [if_pos h4]
      obtain ⟨r, evs, hp⟩ : ∃ r e, convert_mp4_to_wav env args.source = (r, e) :=
        ⟨_, _, rfl⟩
      rw [hp]
      cases r with
      | none => rfl
      | some audio_file => rfl
    · rw [if_neg h4]
  · rw [if_neg hf, if_neg hf]
    by_cases hv : is_valid_youtube_url args.source = true
    · rw [if_pos hv, if_pos hv]
      by_cases hig : args.ignore_transcript = true
      · rw [if_pos hig]
        obtain ⟨rd, ed, hd⟩ :
            ∃ r e, download_youtube_audio_as_mp3 env args.source = (r, e) :=
          ⟨_, _, rfl⟩
        rw [hd]
        cases rd with
        | none => rfl
        | some audio_file => rfl
      · rw [if_neg hig]
        obtain ⟨rg, eg, hg⟩ :
            ∃ r e, get_youtube_transcript env args.source args.language = (r, e) :=
          ⟨_, _, rfl⟩
        rw [hg]
        cases rg with
        | some t => rfl
        | none =>
          obtain ⟨rd, ed, hd⟩ :
              ∃ r e, download_youtube_audio_as_mp3 env args.source = (r, e) :=
            ⟨_, _, rfl⟩
          rw [hd]
          cases rd with
          | none => rfl
          | some audio_file => rfl
    · rw [if_neg hv, if_neg hv]

/-! ## The claims -/

/-- C1: for a YouTube URL source (not an existing file) with an available
transcript in the requested language and `ignore_transcript` false, the run
attempts no audio download, creates no file, and the final printed output is
the caption entry texts joined with single spaces, in entry order. -/
theorem C1_transcript_no_download (env : Env) (args : Args) (vid : String)
    (entries : List String)
    (hfile : env.isFile args.source = false)
    (hurl : is_valid_youtube_url args.source = true)
    (hig : args.ignore_transcript = false)
    (hvid : env.videoId args.source = some vid)
    (hfind : env.findTranscript vid args.language = Except.ok ())
    (hfetch : env.fetchEntries vid args.language = Except.ok entries) :
    (main env args).finalOutput = some (String.intercalate " " entries) ∧
    hasEvDownload (main env args).events = false ∧
    hasEvCreate (main env args).events = false := by
  rw [main_url_transcript_eq env args vid entries hfile hurl hig hvid hfind hfetch]
  refine ⟨rfl, ?_, ?_⟩ <;> simp [hasEvDownload, hasEvCreate, isDownloadEv, isCreateEv]

/-- Witness for C1: a healthy world with transcript `["hello", "world"]`
yields output `"hello world"`, no download, no file writes. -/
theorem C1_transcript_no_download_witness :
    (main envBase argsUrl).finalOutput = some (String.intercalate " " ["hello", "world"]) ∧
    hasEvDownload (main envBase argsUrl).events = false ∧
    hasEvCreate (main envBase argsUrl).events = false :=
  C1_transcript_no_download envBase argsUrl "v" ["hello", "world"]
    rfl (by decide) rfl rfl rfl rfl

/-- C2: on the URL branch, a transcript fetch is attempted iff
`ignore_transcript` is false, and the download-then-transcribe path runs iff
no transcript text was obtained (fetch skipped, or fetch returned `None`). -/
theorem C2_fetch_iff_download_fallback (env : Env) (args : Args)
    (hfile : env.isFile args.source = false)
    (hurl : is_valid_youtube_url args.source = true) :
    (hasEvFetch (main env args).events = true ↔ args.ignore_transcript = false) ∧
    (hasEvDownload (main env args).events = true ↔
      (args.ignore_transcript = true ∨
        (get_youtube_transcript env args.source args.language).1 = none)) := by
  obtain ⟨rg, eg, hg⟩ :
      ∃ r e, get_youtube_transcript env args.source args.language = (r, e) :=
    ⟨_, _, rfl⟩
  obtain ⟨rd, ed, hd⟩ :
      ∃ r e, download_youtube_audio_as_mp3 env args.source = (r, e) :=
    ⟨_, _, rfl⟩
  have hegF : eg.any isFetchEv = true := by
    have := gt_has_fetch env args.source args.language; rw [hg] at this; exact this
  have hegD : eg.any isDownloadEv = false := by
    have := gt_no_download env args.source args.language; rw [hg] at this; exact this
  have hedF : ed.any isFetchEv = false := by
    have := dl_no_fetch env args.source; rw [hd] at this; exact this
  have hedD : ed.any isDownloadEv = true := by
    have := dl_has_download env args.source; rw [hd] at this; exact this
  unfold main
  rw [if_neg (by simp [hfile]), if_pos hurl, hg]
  by_cases hig : args.ignore_transcript = true
  · rw [if_pos hig, hd]
    cases rd with
    | none =>
      simp [hig, hasEvFetch, hasEvDownload, List.any_append, hedF, hedD,
        isFetchEv, isDownloadEv]
    | some audio_file =>
      obtain ⟨tc, ec, hc⟩ :
          ∃ r e, convert_audio_to_text env audio_file args.language = (r, e) :=
        ⟨_, _, rfl⟩
      have hecF : ec.any isFetchEv = false := by
        have := cat_no_fetch env audio_file args.language; rw [hc] at this; exact this
      have hecD : ec.any isDownloadEv = false := by
        have := cat_no_download env audio_file args.language; rw [hc] at this; exact this
      simp [hig, hc, hasEvFetch, hasEvDownload, List.any_append, hedF, hedD,
        hecF, hecD]
  · simp only [Bool.not_eq_true] at hig
    rw [if_neg (by simp [hig])]
    cases rg with
    | some t =>
      simp [hig, hasEvFetch, hasEvDownload, hegF, hegD]
    | none =>
      rw [hd]
      cases rd with
      | none =>
        simp [hig, hasEvFetch, hasEvDownload, List.any_append, hegF, hegD,
          hedF, hedD, isFetchEv, isDownloadEv]
      | some audio_file =>
        obtain ⟨tc, ec, hc⟩ :
            ∃ r e, convert_audio_to_text env audio_file args.language = (r, e) :=
          ⟨_, _, rfl⟩
        have hecF : ec.any isFetchEv = false := by
          have := cat_no_fetch env audio_file args.language; rw [hc] at this; exact this
        have hecD : ec.any isDownloadEv = false := by
          have := cat_no_download env audio_file args.language; rw [hc] at this; exact this
        simp [hig, hc, hasEvFetch, hasEvDownload, List.any_append, hegF, hegD,
          hedF, hedD, hecF, hecD]

/-- Witness for C2 at a healthy world: fetch attempted (flag false), no
download (transcript text obtained). -/
theorem C2_fetch_iff_download_fallback_witness :
    (hasEvFetch (main envBase argsUrl).events = true ↔
      argsUrl.ignore_transcript = false) ∧
    (hasEvDownload (main envBase argsUrl).events = true ↔
      (argsUrl.ignore_transcript = true ∨
        (get_youtube_transcript envBase argsUrl.source argsUrl.language).1 = none)) :=
  C2_fetch_iff_download_fallback envBase argsUrl rfl (by decide)

/-- C4: an existing file is always handled by the local-file branch, even if
it also matches the YouTube URL pattern; the URL branch is reached only for
sources that are not existing files. -/
theorem C4_local_file_priority (env : Env) (args : Args) :
    (env.isFile args.source = true → (main env args).branch = Branch.localFile) ∧
    ((main env args).branch = Branch.url → env.isFile args.source = false) := by
  constructor
  · intro h
    rw [main_branch]
    simp [h]
  · intro h
    rw [main_branch] at h
    by_cases hf : env.isFile args.source = true
    · rw [if_pos hf] at h
      cases h
    · simpa using hf

/-- Witness for C4: a source that is both an existing file and a
well-formed YouTube URL goes down the local-file branch. -/
theorem C4_local_file_priority_witness :
    is_valid_youtube_url "https://www.youtube.com/watch?v=abc" = true ∧
    (main envLocal argsUrl).branch = Branch.localFile :=
  ⟨by decide, (C4_local_file_priority envLocal argsUrl).1 rfl⟩

/-- C9: a transcript that exists but has zero caption entries yields the
empty string (`" ".join([])`), which the orchestrator treats as success: it
prints the empty text and does not fall back to audio download. -/
theorem C9_empty_transcript_is_success (env : Env) (args : Args) (vid : String)
    (hfile : env.isFile args.source = false)
    (hurl : is_valid_youtube_url args.source = true)
    (hig : args.ignore_transcript = false)
    (hvid : env.videoId args.source = some vid)
    (hfind : env.findTranscript vid args.language = Except.ok ())
    (hfetch : env.fetchEntries vid args.language = Except.ok []) :
    (get_youtube_transcript env args.source args.language).1 = some "" ∧
    (main env args).finalOutput = some "" ∧
    hasEvDownload (main env args).events = false := by
  refine ⟨?_, ?_, ?_⟩
  · rw [gt_eq env args.source args.language vid [] hvid hfind hfetch]
    rfl
  · rw [main_url_transcript_eq env args vid [] hfile hurl hig hvid hfind hfetch]
    rfl
  · rw [main_url_transcript_eq env args vid [] hfile hurl hig hvid hfind hfetch]
    simp [hasEvDownload, isDownloadEv]

/-- Witness for C9: an empty caption list prints the empty string with no
download attempt. -/
theorem C9_empty_transcript_is_success_witness :
    (get_youtube_transcript envEmptyTranscript argsUrl.source argsUrl.language).1 =
      some "" ∧
    (main envEmptyTranscript argsUrl).finalOutput = some "" ∧
    hasEvDownload (main envEmptyTranscript argsUrl).events = false :=
  C9_empty_transcript_is_success envEmptyTranscript argsUrl "v"
    rfl (by decide) rfl rfl rfl rfl

/-- C3 counterexample: `"youtube/a"` is accepted by the code's regex (host
alternative `youtu\.?be` with the dot absent matches `youtube`), yet it does
not match the pattern claimed by the spec, whose only hosts are
`www.youtube.com` and `youtu.be`. -/
theorem C3_url_classifier_counterexample :
    is_valid_youtube_url "youtube/a" = true ∧ claimedPattern "youtube/a" = false := by
  decide

/-- C5 counterexample: on input `"a.mp3.mp3"` the conversion succeeds and
returns `"a.wav.wav"` — Python's `str.replace` replaced both occurrences of
`".mp3"` — not the suffix-only replacement `"a.mp3.wav"` the claim states. -/
theorem C5_wav_basename_counterexample :
    (convert_mp3_to_wav envBase "a.mp3.mp3").1 = some "a.wav.wav" ∧
    (convert_mp3_to_wav envBase "a.mp3.mp3").1 ≠ some "a.mp3.wav" := by
  decide

/-- C5 (amended): for an input whose only occurrence of `".mp3"`
(resp. `".mp4"`) is its final suffix, a successful conversion returns the
path with that suffix replaced by `".wav"` and the rest unchanged. -/
theorem C5_wav_basename_amended (env : Env) (p : String) (t : List Char) :
    (env.mp3ConvOk p = true → p.data = t ++ ".mp3".data →
      onlySuffix p.data ".mp3".data →
      (convert_mp3_to_wav env p).1 = some ⟨t ++ ".wav".data⟩) ∧
    (env.mp4ConvOk p = true → p.data = t ++ ".mp4".data →
      onlySuffix p.data ".mp4".data →
      (convert_mp4_to_wav env p).1 = some ⟨t ++ ".wav".data⟩) := by
  constructor
  · intro hc hs honly
    unfold convert_mp3_to_wav
    rw [if_pos hc]
    simp [pyReplace_suffix p ".mp3" ".wav" t (by decide) hs honly]
  · intro hc hs honly
    unfold convert_mp4_to_wav
    rw [if_pos hc]
    simp [pyReplace_suffix p ".mp4" ".wav" t (by decide) hs honly]

/-- Witness for amended C5 at `"x.mp3"` and `"x.mp4"`. -/
theorem C5_wav_basename_amended_witness :
    (convert_mp3_to_wav envBase "x.mp3").1 = some ⟨"x".data ++ ".wav".data⟩ ∧
    (convert_mp4_to_wav envBase "x.mp4").1 = some ⟨"x".data ++ ".wav".data⟩ :=
  ⟨(C5_wav_basename_amended envBase "x.mp3" "x".data).1 rfl (by decide) (by decide),
   (C5_wav_basename_amended envBase "x.mp4" "x".data).2 rfl (by decide) (by decide)⟩

/-- C6 counterexample: in a successful ignore-transcript run the wav file is
produced from the downloaded mp3, yet the mp3 intermediate is never
deleted — no stage of the code removes it. -/
theorem C6_mp3_never_deleted :
    Ev.createFile "v.wav" ∈ (main envBase argsIg).events ∧
    Ev.deleteFile "v.mp3" ∉ (main envBase argsIg).events := by
  decide

/-- C6 (amended): the only deletion the pipeline ever performs is of the
downloaded mp4 container, in a run that created that container's mp3 export;
the mp3 and wav intermediates are never deleted. -/
theorem C6_deletes_only_container (env : Env) (args : Args) (f : String)
    (h : Ev.deleteFile f ∈ (main env args).events) :
    deletionJustified env args.source f (main env args).events = true := by
  unfold main at h ⊢
  by_cases hf : env.isFile args.source = true
  · rw [if_pos hf] at h ⊢
    exfalso
    by_cases h4 : pyEndsWith args.source ".mp4" = true
    · rw [if_pos h4] at h
      obtain ⟨r, evs, hp⟩ : ∃ r e, convert_mp4_to_wav env args.source = (r, e) :=
        ⟨_, _, rfl⟩
      rw [hp] at h
      cases r with
      | none =>
        simp only [List.mem_append, List.mem_cons, List.not_mem_nil, or_false] at h
        rcases h with h | h
        · rcases conv4_trace_mem env args.source _ (by rw [hp]; exact h) with
            ⟨f2, hx⟩ | ⟨m, hx⟩ <;> cases hx
        · cases h
      | some audio_file =>
        simp only [List.mem_append] at h
        rcases h with h | h
        · rcases conv4_trace_mem env args.source _ (by rw [hp]; exact h) with
            ⟨f2, hx⟩ | ⟨m, hx⟩ <;> cases hx
        · exact cat_no_delete env audio_file args.language f h
    · rw [if_neg h4] at h
      exact cat_no_delete env args.source args.language f h
  · rw [if_neg hf] at h ⊢
    by_cases hv : is_valid_youtube_url args.source = true
    · rw [if_pos hv] at h ⊢
      by_cases hig : args.ignore_transcript = true
      · rw [if_pos hig] at h ⊢
        obtain ⟨rd, ed, hd⟩ :
            ∃ r e, download_youtube_audio_as_mp3 env args.source = (r, e) :=
          ⟨_, _, rfl⟩
        rw [hd] at h ⊢
        cases rd with
        | none =>
          simp only [List.nil_append, List.mem_append, List.mem_cons,
            List.not_mem_nil, or_false] at h
          rcases h with h | h
          · obtain ⟨vid, hvv, hff, hcr⟩ := dl_delete env args.source f (by rw [hd]; exact h)
            rw [hd] at hcr
            unfold deletionJustified
            rw [hvv]
            simp [hff, List.mem_append, hcr]
          · cases h
        | some audio_file =>
          simp only [List.nil_append, List.mem_append] at h
          rcases h with h | h
          · obtain ⟨vid, hvv, hff, hcr⟩ := dl_delete env args.source f (by rw [hd]; exact h)
            rw [hd] at hcr
            unfold deletionJustified
            rw [hvv]
            simp [hff, List.mem_append, hcr]
          · exact absurd h (cat_no_delete env audio_file args.language f)
      · rw [if_neg hig] at h ⊢
        obtain ⟨rg, eg, hg⟩ :
            ∃ r e, get_youtube_transcript env args.source args.language = (r, e) :=
          ⟨_, _, rfl⟩
        rw [hg] at h ⊢
        cases rg with
        | some t =>
          exact absurd h (by
            intro hm
            exact gt_no_delete env args.source args.language f (by rw [hg]; exact hm))
        | none =>
          obtain ⟨rd, ed, hd⟩ :
              ∃ r e, download_youtube_audio_as_mp3 env args.source = (r, e) :=
            ⟨_, _, rfl⟩
          rw [hd] at h ⊢
          cases rd with
          | none =>
            simp only [List.mem_append, List.mem_cons, List.not_mem_nil,
              or_false] at h
            rcases h with (h | h) | h
            · exact absurd (by rw [hg]; exact h)
                (gt_no_delete env args.source args.language f)
            · obtain ⟨vid, hvv, hff, hcr⟩ := dl_delete env args.source f (by rw [hd]; exact h)
              rw [hd] at hcr
              unfold deletionJustified
              rw [hvv]
              simp [hff, List.mem_append, hcr]
            · cases h
          | some audio_file =>
            simp only [List.mem_append] at h
            rcases h with (h | h) | h
            · exact absurd (by rw [hg]; exact h)
                (gt_no_delete env args.source args.language f)
            · obtain ⟨vid, hvv, hff, hcr⟩ := dl_delete env args.source f (by rw [hd]; exact h)
              rw [hd] at hcr
              unfold deletionJustified
              rw [hvv]
              simp [hff, List.mem_append, hcr]
            · exact absurd h (cat_no_delete env audio_file args.language f)
    · rw [if_neg hv] at h
      simp at h

/-- Witness for amended C6: the deletion of `"v.mp4"` in a successful
ignore-transcript run is justified by its mp3 export. -/
theorem C6_deletes_only_container_witness :
    deletionJustified envBase argsIg.source "v.mp4" (main envBase argsIg).events = true :=
  C6_deletes_only_container envBase argsIg "v.mp4" (by decide)

/-- C7: an audio path ending in none of `.wav`, `.mp3`, `.mp4` makes the
transcription stage return `None` after printing the unsupported-format
message; the `ValueError` raised inside the stage is caught by its own
handler and never escapes. -/
theorem C7_unsupported_format_clean (env : Env) (p lang : String)
    (h1 : pyEndsWith p ".wav" = false)
    (h2 : pyEndsWith p ".mp3" = false)
    (h3 : pyEndsWith p ".mp4" = false) :
    convert_audio_to_text env p lang =
      (none, [Ev.printMsg ("Error transcribing audio: " ++
        "Unsupported file format. Only MP3 and MP4 are supported.")]) := by
  unfold convert_audio_to_text
  rw [if_neg (by simp [h1]), if_neg (by simp [h2]), if_neg (by simp [h3])]
  rfl

/-- Witness for C7 at `"a.txt"`. -/
theorem C7_unsupported_format_clean_witness :
    convert_audio_to_text envBase "a.txt" "ja" =
      (none, [Ev.printMsg ("Error transcribing audio: " ++
        "Unsupported file format. Only MP3 and MP4 are supported.")]) :=
  C7_unsupported_format_clean envBase "a.txt" "ja" (by decide) (by decide) (by decide)

/-- C8: every stage that returns `None` (a caught internal exception) has
printed a message, and when every applicable stage fails the orchestrator
prints no transcript output and returns normally. -/
theorem C8_stage_failures_print_and_return (env : Env) (args : Args)
    (u p l : String) :
    ((get_youtube_transcript env u l).1 = none →
      hasEvPrint (get_youtube_transcript env u l).2 = true) ∧
    ((download_youtube_audio_as_mp3 env u).1 = none →
      hasEvPrint (download_youtube_audio_as_mp3 env u).2 = true) ∧
    ((convert_mp3_to_wav env p).1 = none →
      hasEvPrint (convert_mp3_to_wav env p).2 = true) ∧
    ((convert_mp4_to_wav env p).1 = none →
      hasEvPrint (convert_mp4_to_wav env p).2 = true) ∧
    ((convert_audio_to_text env p l).1 = none →
      hasEvPrint (convert_audio_to_text env p l).2 = true) ∧
    ((∀ u2, env.videoId u2 = none) →
      (∀ p2 l2 t, env.transcribe p2 l2 ≠ Except.ok t) →
      (main env args).finalOutput = none) :=
  ⟨gt_none_print env u l, dl_none_print env u, conv3_none_print env p,
   conv4_none_print env p, cat_none_print env p l,
   fun h1 h2 => main_none_of_all_fail env args h1 h2⟩

/-- Witness for C8 at concrete failing worlds. -/
theorem C8_stage_failures_print_and_return_witness :
    hasEvPrint (get_youtube_transcript envAllFail "youtu.be/x" "ja").2 = true ∧
    hasEvPrint (download_youtube_audio_as_mp3 envAllFail "youtu.be/x").2 = true ∧
    hasEvPrint (convert_mp3_to_wav envMp3Fail "x.mp3").2 = true ∧
    hasEvPrint (convert_mp4_to_wav envMp4Fail "x.mp4").2 = true ∧
    hasEvPrint (convert_audio_to_text envAllFail "x.txt" "ja").2 = true ∧
    (main envAllFail argsUrl).finalOutput = none :=
  ⟨(C8_stage_failures_print_and_return envAllFail argsUrl "youtu.be/x" "x.txt" "ja").1
      (by decide),
   (C8_stage_failures_print_and_return envAllFail argsUrl "youtu.be/x" "x.txt" "ja").2.1
      (by decide),
   (C8_stage_failures_print_and_return envMp3Fail argsUrl "youtu.be/x" "x.mp3" "ja").2.2.1
      (by decide),
   (C8_stage_failures_print_and_return envMp4Fail argsUrl "youtu.be/x" "x.mp4" "ja").2.2.2.1
      (by decide),
   (C8_stage_failures_print_and_return envAllFail argsUrl "youtu.be/x" "x.txt" "ja").2.2.2.2.1
      (by decide),
   (C8_stage_failures_print_and_return envAllFail argsUrl "youtu.be/x" "x.txt" "ja").2.2.2.2.2
      (fun _ => rfl) (fun p2 l2 t ht => Except.noConfusion ht)⟩

/-- C10: a `.mp3` (resp. `.mp4`) input whose nested wav conversion fails
still makes the transcription stage return `None` cleanly: the `TypeError`
from `wave.open(None)` is caught by the stage's own handler. -/
theorem C10_nested_conversion_caught (env : Env) (p lang : String) :
    (pyEndsWith p ".wav" = false → pyEndsWith p ".mp3" = true →
      env.mp3ConvOk p = false → (convert_audio_to_text env p lang).1 = none) ∧
    (pyEndsWith p ".wav" = false → pyEndsWith p ".mp3" = false →
      pyEndsWith p ".mp4" = true → env.mp4ConvOk p = false →
      (convert_audio_to_text env p lang).1 = none) := by
  constructor
  · intro h1 h2 hc
    unfold convert_audio_to_text
    rw [if_neg (by simp [h1]), if_pos h2]
    unfold convert_mp3_to_wav
    rw [if_neg (by simp [hc])]
  · intro h1 h2 h3 hc
    unfold convert_audio_to_text
    rw [if_neg (by simp [h1]), if_neg (by simp [h2]), if_pos h3]
    unfold convert_mp4_to_wav
    rw [if_neg (by simp [hc])]

/-- Witness for C10 at `"b.mp3"` and `"b.mp4"` with failing conversions. -/
theorem C10_nested_conversion_caught_witness :
    (convert_audio_to_text envMp3Fail "b.mp3" "ja").1 = none ∧
    (convert_audio_to_text envMp4Fail "b.mp4" "ja").1 = none :=
  ⟨(C10_nested_conversion_caught envMp3Fail "b.mp3" "ja").1
      (by decide) (by decide) rfl,
   (C10_nested_conversion_caught envMp4Fail "b.mp4" "ja").2
      (by decide) (by decide) (by decide) rfl⟩

end Yt2t
